import Mathlib

/-!
# geoPins: the Map component and its interaction with the pin store

A shallow embedding of `client/src/components/Map.js`.  The component's hooks
(`viewport`, `userPosition`, `popup`) become an explicit record, every handler
becomes a function that returns the new local state together with the list of
actions it dispatches, in dispatch order, and the `useEffect` dependency lists
become explicit scheduling conditions.

JavaScript numbers that are only stored and copied (coordinates, zoom) are
rationals; epoch milliseconds are integers, and the arithmetic done on them
is binary64 arithmetic, modelled by exact rationals rounded to 53 bits.
-/

namespace GeoPins

/-! ## Data read by the component -/

/-- A user; Map.js reads only its `_id`. -/
structure User where
  _id : String
  deriving DecidableEq, Repr

/-- A committed pin, with the fields Map.js reads. -/
structure Pin where
  _id : String
  latitude : ℚ
  longitude : ℚ
  title : String
  image : String
  createdAt : String
  author : User
  deriving DecidableEq, Repr

/-- The draft slot of the store: a location only. -/
structure Draft where
  latitude : ℚ
  longitude : ℚ
  deriving DecidableEq, Repr

/-- Payload of UPDATE_DRAFT_LOCATION as built in handleMapClick (Map.js 73-76):
the object literal lists `longitude` first. -/
structure DraftLocation where
  longitude : ℚ
  latitude : ℚ
  deriving DecidableEq, Repr

/-- The actions dispatched by the source files (Map.js 64, 70, 74, 86, 183, 191,
199; Login.js 21, 22, 30), one constructor per `type` string. -/
inductive Action where
  | GET_PINS (payload : List Pin)
  | CREATE_DRAFT
  | UPDATE_DRAFT_LOCATION (payload : DraftLocation)
  | SET_PIN (payload : Pin)
  | CREATE_PIN (payload : Pin)
  | CREATE_COMMENT (payload : Pin)
  | DELETE_PIN (payload : Pin)
  | LOGIN_USER (payload : User)
  | IS_LOGGED_IN (payload : Bool)
  deriving DecidableEq, Repr

/-- The part of the context `state` that Map.js reads: `state.pins`,
`state.draft`, `state.currentUser`. -/
structure State where
  pins : List Pin
  draft : Option Draft
  currentUser : Option User
  deriving DecidableEq, Repr

/-- The map camera (Map.js 23-27). -/
structure Viewport where
  latitude : ℚ
  longitude : ℚ
  zoom : ℚ
  deriving DecidableEq, Repr

/-- The point recorded by `setUserPosition` (Map.js 57). -/
structure Position where
  latitude : ℚ
  longitude : ℚ
  deriving DecidableEq, Repr

/-- The three `useState` cells of the component (Map.js 33-35). -/
structure Local where
  viewport : Viewport
  userPosition : Option Position
  popup : Option Pin
  deriving DecidableEq, Repr

/-- Map.js 23-27. -/
def INITIAL_VIEWPORT : Viewport :=
  { latitude := 37.7577, longitude := -122.4376, zoom := 13 }

/-- The local state of the first render: the `useState` initial values. -/
def Local.initial : Local :=
  { viewport := INITIAL_VIEWPORT, userPosition := none, popup := none }

/-! ## The popup effect (Map.js 37-42) -/

/-- JavaScript `Array.prototype.findIndex`, counting from `i`: the index of the
first element satisfying `f`, or `-1`. -/
def findIndexFrom {α : Type} (f : α → Bool) : List α → Nat → Int
  | [], _ => -1
  | x :: xs, i => if f x then (i : Int) else findIndexFrom f xs (i + 1)

/-- JavaScript `Array.prototype.findIndex`. -/
def findIndex {α : Type} (f : α → Bool) (xs : List α) : Int :=
  findIndexFrom f xs 0

/-- Truthiness of `popup && state.pins.findIndex(pin => pin._id === popup._id) > -1`
(Map.js 39): falsy when `popup` is null. -/
def pinExists (pins : List Pin) (popup : Option Pin) : Bool :=
  match popup with
  | none => false
  | some p => decide (findIndex (fun pin => pin._id == p._id) pins > -1)

/-- Body of the popup effect (Map.js 39-40): `if (!pinExists) setPopup(null)`.
Returns the popup cell after the body has run. -/
def popupEffect (pins : List Pin) (popup : Option Pin) : Option Pin :=
  if !pinExists pins popup then none else popup

/-- Scheduling of the popup effect (Map.js 42): its dependency list is
`[state.pins.length]`, so after a render it runs only when the length differs
from the length at the previous render. -/
def popupEffectOnRender (prevPins pins : List Pin) (popup : Option Pin) : Option Pin :=
  if pins.length = prevPins.length then popup else popupEffect pins popup

/-! ## Handlers -/

/-- What a handler leaves behind: the local state and the actions it dispatched,
in order. -/
structure Handled where
  view : Local
  dispatched : List Action
  deriving DecidableEq, Repr

/-- Callback of `getCurrentPosition` (Map.js 54-58).  `viewport` is the variable
the arrow function closes over; `view` is the local state when the callback
fires. -/
def positionCallback (viewport : Viewport) (latitude longitude : ℚ) (view : Local) : Local :=
  { view with
    viewport := { viewport with latitude := latitude, longitude := longitude }
    userPosition := some { latitude := latitude, longitude := longitude } }

/-- The function `getUserPosition` (Map.js 52-60), called once by the mount
effect (Map.js 44-46, dependency list `[]`): its closure is the one of the first
render, where `viewport` is the `useState` initial value `INITIAL_VIEWPORT`.
`hasGeolocation` is `'geolocation' in navigator`; `position` is what the
provider reports, if it ever does; `view` is the local state at that moment. -/
def getUserPosition (hasGeolocation : Bool) (position : Option (ℚ × ℚ)) (view : Local) : Local :=
  if hasGeolocation then
    match position with
    | some (latitude, longitude) => positionCallback Local.initial.viewport latitude longitude view
    | none => view
  else view

/-- A click event of the map: `lngLat` is the two-element array
`[longitude, latitude]`. -/
structure MapClick where
  lngLat : ℚ × ℚ
  leftButton : Bool
  deriving DecidableEq, Repr

/-- The handler `handleMapClick` (Map.js 67-77): the actions it dispatches, in
order. -/
def handleMapClick (state : State) (ev : MapClick) : List Action :=
  if !ev.leftButton then []
  else
    let first := if state.draft.isNone then [Action.CREATE_DRAFT] else []
    let (longitude, latitude) := ev.lngLat
    first ++ [Action.UPDATE_DRAFT_LOCATION { longitude := longitude, latitude := latitude }]

/-- Rounding of a non-negative rational to the nearest integer, a tie going to
the even one. -/
def roundHalfEven (m : ℚ) : Int :=
  let f := ⌊m⌋
  if m - f < 1 / 2 then f
  else if 1 / 2 < m - f then f + 1
  else if f % 2 = 0 then f else f + 1

/-- Result of a JavaScript Number operation whose exact value is `x`: `x`
rounded to binary64 (53 significant bits, to nearest, ties to even).  Overflow
and subnormals are left out: the values met here lie between 1/60000 and 2^54
in magnitude. -/
def toDouble (x : ℚ) : ℚ :=
  if x = 0 then 0
  else
    let ulp : ℚ := 2 ^ (Int.log 2 |x| - 52)
    (if x < 0 then -1 else 1) * (roundHalfEven (|x| / ulp) : ℚ) * ulp

/-- JavaScript `new Date(n).getTime()` for an integral number `n`: TimeClip
gives `NaN` (here `none`, an Invalid Date) beyond 8.64e15 milliseconds from the
epoch. -/
def getTime (n : Int) : Option Int :=
  if |n| ≤ 8640000000000000 then some n else none

/-- Library function `date-fns/difference_in_milliseconds` (date-fns 1.x, its
body is outside the repository): both arguments go through `new Date`, and the
result is `dateLeft.getTime() - dateRight.getTime()`, `NaN` (here `none`) when
either date is invalid. -/
def differenceInMilliseconds (dateLeft dateRight : Int) : Option ℚ :=
  match getTime dateLeft, getTime dateRight with
  | some l, some r => some (toDouble ((l : ℚ) - (r : ℚ)))
  | _, _ => none

/-- Library function `date-fns/difference_in_minutes` (imported at Map.js 4; its
body is outside the repository): `diff = differenceInMilliseconds / 60000`, then
`diff > 0 ? Math.floor(diff) : Math.ceil(diff)`, that is `diff` rounded toward
zero; `NaN` (here `none`) when either date is invalid. -/
def differenceInMinutes (dateLeft dateRight : Int) : Option Int :=
  match differenceInMilliseconds dateLeft dateRight with
  | some ms =>
    let diff := toDouble (ms / 60000)
    some (if diff > 0 then ⌊diff⌋ else ⌈diff⌉)
  | none => none

/-- The function `highlightNewPin` (Map.js 79-82).  `now` is `Date.now()`;
`toNumber` is `Number(pin.createdAt)` as `new Date` reads it: its integer part,
`none` when it is `NaN` or infinite.  When `differenceInMinutes` is `NaN` the
comparison `NaN <= 30` is false. -/
def highlightNewPin (toNumber : String → Option Int) (now : Int) (pin : Pin) : String :=
  let isNewPin :=
    match toNumber pin.createdAt with
    | some createdAt =>
      match differenceInMinutes now createdAt with
      | some minutes => decide (minutes ≤ 30)
      | none => false
    | none => false
  if isNewPin then "limegreen" else "purple"

/-- The handler `handleSelectPin` (Map.js 84-87). -/
def handleSelectPin (view : Local) (pin : Pin) : Handled :=
  { view := { view with popup := some pin }, dispatched := [Action.SET_PIN pin] }

/-- The `onClose` handler of the popup (Map.js 157). -/
def handleClosePopup (view : Local) : Local :=
  { view with popup := none }

/-- Result of the asynchronous `handleDeletePin`: the state it leaves and
whether its promise was rejected. -/
structure Deleted (ε : Type) where
  view : Local
  dispatched : List Action
  rejected : Option ε

/-- The handler `handleDeletePin` (Map.js 89-93).  `request` is
`client.request(DELETE_PIN_MUTATION, {pinId})`: an error is a rejected promise,
which the `await` rethrows, skipping `setPopup(null)`. -/
def handleDeletePin {ε ρ : Type} (request : String → Except ε ρ) (view : Local) (popup : Pin) :
    Deleted ε :=
  let pinId := popup._id
  match request pinId with
  | .error e => { view := view, dispatched := [], rejected := some e }
  | .ok _ => { view := { view with popup := none }, dispatched := [], rejected := none }

/-- The predicate `isAuthUser` (Map.js 95); `none` is the TypeError of reading
`_id` of a null `state.currentUser` or `.author` of a null `popup`. -/
def isAuthUser (state : State) (popup : Option Pin) : Option Bool :=
  match state.currentUser, popup with
  | some currentUser, some p => some (currentUser._id == p.author._id)
  | _, _ => none

/-- Whether the delete button is rendered (Map.js 151, 168-172): inside
`popup && ...`, guarded by `isAuthUser()`. -/
def showsDeleteButton (state : State) (popup : Option Pin) : Option Bool :=
  match popup with
  | none => some false
  | some p => isAuthUser state (some p)

/-- The `onSubscriptionData` handler of PIN_ADDED_SUBSCRIPTION (Map.js 178-185). -/
def onPinAdded (pinAdded : Pin) : List Action := [Action.CREATE_PIN pinAdded]

/-- The `onSubscriptionData` handler of PIN_UPDATED_SUBSCRIPTION (Map.js 186-193). -/
def onPinUpdated (pinUpdated : Pin) : List Action := [Action.CREATE_COMMENT pinUpdated]

/-- The `onSubscriptionData` handler of PIN_DELETED_SUBSCRIPTION (Map.js 194-201). -/
def onPinDeleted (pinDeleted : Pin) : List Action := [Action.DELETE_PIN pinDeleted]

/-! ## The store's effect on the pin collection -/

/-- Modelled from the spec: upsert-by-id of the store's reducing function (the
module behind `../context`, which is not among the source files).  Glossary:
"insert if absent, otherwise replace in place". -/
def upsertById (pins : List Pin) (pin : Pin) : List Pin :=
  if pins.any (fun q => q._id == pin._id) then
    pins.map (fun q => if q._id == pin._id then pin else q)
  else pins ++ [pin]

/-- Modelled from the spec: removal by id of the store's reducing function (not
among the source files).  §4.1: "Removes the pin with matching id from the
collection; no-op if absent". -/
def removeById (pins : List Pin) (pin : Pin) : List Pin :=
  pins.filter (fun q => q._id != pin._id)

/-- Modelled from the spec: the store's reducing function (not among the source
files), restricted to the pin collection, after the action table of §4.1:
GET_PINS replaces the collection, CREATE_PIN and CREATE_COMMENT upsert by id,
DELETE_PIN removes by id, and the other actions do not alter the collection. -/
def pinsReducer (pins : List Pin) : Action → List Pin
  | .GET_PINS payload => payload
  | .CREATE_PIN pin => upsertById pins pin
  | .CREATE_COMMENT pin => upsertById pins pin
  | .DELETE_PIN pin => removeById pins pin
  | .CREATE_DRAFT => pins
  | .UPDATE_DRAFT_LOCATION _ => pins
  | .SET_PIN _ => pins
  | .LOGIN_USER _ => pins
  | .IS_LOGGED_IN _ => pins

/-- The store actions that act on the pin collection. -/
def Action.onPins : Action → Bool
  | .GET_PINS _ => true
  | .CREATE_PIN _ => true
  | .CREATE_COMMENT _ => true
  | .DELETE_PIN _ => true
  | _ => false

/-! ## The component as a transition system -/

/-- The pin collection of the store together with the component's local state. -/
structure Screen where
  pins : List Pin
  view : Local
  deriving DecidableEq, Repr

/-- State after mount: empty collection, no popup. -/
def Screen.initial : Screen := { pins := [], view := Local.initial }

/-- One dispatched action: the store reduces, the component renders again and
the popup effect runs if its dependency changed. -/
def dispatchStep (s : Screen) (a : Action) : Screen :=
  let pins := pinsReducer s.pins a
  { pins := pins
    view := { s.view with popup := popupEffectOnRender s.pins pins s.view.popup } }

/-- A click on the marker of `pin` (Map.js 144): `handleSelectPin`, then its
dispatched actions. -/
def selectStep (s : Screen) (pin : Pin) : Screen :=
  let h := handleSelectPin s.view pin
  h.dispatched.foldl dispatchStep { s with view := h.view }

/-- Closing the popup (Map.js 157). -/
def closeStep (s : Screen) : Screen :=
  { s with view := handleClosePopup s.view }

/-- States reachable from mount when a store action `a` may be dispatched in
state `s` only if `allowed s a`. -/
inductive Reachable (allowed : Screen → Action → Prop) : Screen → Prop where
  | initial : Reachable allowed Screen.initial
  | dispatch {s : Screen} (a : Action) :
      Reachable allowed s → allowed s a → Reachable allowed (dispatchStep s a)
  | select {s : Screen} (pin : Pin) :
      Reachable allowed s → pin ∈ s.pins → Reachable allowed (selectStep s pin)
  | close {s : Screen} : Reachable allowed s → Reachable allowed (closeStep s)

/-- Every action on the pin collection may be dispatched at any time. -/
def anyPinAction (_ : Screen) (a : Action) : Prop := a.onPins = true

/-- As `anyPinAction`, but a GET_PINS is dispatched only when its payload has
another length than the current collection or still holds a pin with the id of
the selected popup. -/
def keepsPinAction (s : Screen) (a : Action) : Prop :=
  match a with
  | .GET_PINS payload =>
    payload.length ≠ s.pins.length ∨
      ∀ p, s.view.popup = some p → ∃ q ∈ payload, q._id = p._id
  | .CREATE_PIN _ => True
  | .CREATE_COMMENT _ => True
  | .DELETE_PIN _ => True
  | _ => False

/-- No dangling popup: a selected popup has its `_id` in the collection. -/
def Consistent (s : Screen) : Prop :=
  ∀ p, s.view.popup = some p → ∃ q ∈ s.pins, q._id = p._id

/-! ## Sample data -/

/-- A pin with the given id and author id. -/
def samplePin (id author : String) : Pin :=
  { _id := id, latitude := 0, longitude := 0, title := "", image := "",
    createdAt := "0", author := { _id := author } }

/-- A pin whose createdAt is beyond the range of Date. -/
def farPin : Pin :=
  { _id := "f", latitude := 0, longitude := 0, title := "", image := "",
    createdAt := "9000000000000000", author := { _id := "u" } }

/-- A stand-in for `Number` on the sample pins: "0" is 0 and
"9000000000000000" is 9e15. -/
def sampleNumber (createdAt : String) : Option Int :=
  if createdAt = "0" then some 0
  else if createdAt = "9000000000000000" then some 9000000000000000
  else none

/-- The screen after mount, a pushed CREATE_PIN a, a click on pin a, the bulk
fetch answering GET_PINS [b], and a pushed DELETE_PIN a. -/
def danglingScreen : Screen :=
  dispatchStep
    (dispatchStep
      (selectStep (dispatchStep Screen.initial (.CREATE_PIN (samplePin "a" "u")))
        (samplePin "a" "u"))
      (.GET_PINS [samplePin "b" "u"]))
    (.DELETE_PIN (samplePin "a" "u"))

/-- Local state in which the popup shows the pin "a". -/
def sampleView : Local :=
  { viewport := INITIAL_VIEWPORT, userPosition := none, popup := some (samplePin "a" "u2") }

/-- Local state after the user has zoomed out to 5 before the position is
reported. -/
def zoomedOut : Local :=
  { viewport := { latitude := 37.7577, longitude := -122.4376, zoom := 5 },
    userPosition := none, popup := none }

/-! ## Lemmas -/

theorem findIndexFrom_found {α : Type} (f : α → Bool) (xs : List α) (i : Nat) :
    findIndexFrom f xs i > -1 ↔ ∃ x ∈ xs, f x = true := by
  induction xs generalizing i with
  | nil => simp [findIndexFrom]
  | cons x xs ih =>
    unfold findIndexFrom
    by_cases h : f x = true
    · simp only [h, if_true]
      constructor
      · intro _; exact ⟨x, List.mem_cons_self _ _, h⟩
      · intro _; omega
    · simp only [h]
      rw [if_neg (by simp), ih (i + 1)]
      constructor
      · rintro ⟨y, hy, hfy⟩; exact ⟨y, List.mem_cons_of_mem _ hy, hfy⟩
      · rintro ⟨y, hy, hfy⟩
        rcases List.mem_cons.mp hy with rfl | hy
        · exact absurd hfy h
        · exact ⟨y, hy, hfy⟩

theorem pinExists_iff (pins : List Pin) (p : Pin) :
    pinExists pins (some p) = true ↔ ∃ q ∈ pins, q._id = p._id := by
  simp only [pinExists, findIndex, decide_eq_true_eq]
  rw [findIndexFrom_found]
  simp

theorem popupEffect_some (pins : List Pin) (popup : Option Pin) (p : Pin)
    (h : popupEffect pins popup = some p) : popup = some p ∧ ∃ q ∈ pins, q._id = p._id := by
  unfold popupEffect at h
  by_cases hx : pinExists pins popup = true
  · simp only [hx, Bool.not_true] at h
    have hp : popup = some p := by simpa using h
    subst hp
    exact ⟨rfl, (pinExists_iff pins p).mp hx⟩
  · simp [hx] at h

theorem popupEffect_none (pins : List Pin) : popupEffect pins none = none := by
  simp [popupEffect, pinExists]

theorem popupEffect_present (pins : List Pin) (p : Pin) (h : ∃ q ∈ pins, q._id = p._id) :
    popupEffect pins (some p) = some p := by
  have hx : pinExists pins (some p) = true := (pinExists_iff pins p).mpr h
  simp [popupEffect, hx]

theorem popupEffect_absent (pins : List Pin) (p : Pin) (h : ¬ ∃ q ∈ pins, q._id = p._id) :
    popupEffect pins (some p) = none := by
  have hx : pinExists pins (some p) = false := by
    cases hb : pinExists pins (some p) with
    | false => rfl
    | true => exact absurd ((pinExists_iff pins p).mp hb) h
  simp [popupEffect, hx]

theorem upsertById_keeps (pins : List Pin) (pin : Pin) (x : String)
    (h : ∃ q ∈ pins, q._id = x) : ∃ q ∈ upsertById pins pin, q._id = x := by
  obtain ⟨q, hq, hx⟩ := h
  unfold upsertById
  split
  · by_cases he : q._id = pin._id
    · refine ⟨pin, List.mem_map.mpr ⟨q, hq, by simp [he]⟩, ?_⟩
      rw [← he, hx]
    · exact ⟨q, List.mem_map.mpr ⟨q, hq, by simp [he]⟩, hx⟩
  · exact ⟨q, List.mem_append_left _ hq, hx⟩

theorem removeById_same_length (pins : List Pin) (pin : Pin)
    (h : (removeById pins pin).length = pins.length) : removeById pins pin = pins := by
  unfold removeById at h ⊢
  exact List.filter_eq_self.mpr (List.filter_length_eq_length.mp h)

theorem dispatchStep_consistent (s : Screen) (a : Action)
    (hkeep : (pinsReducer s.pins a).length = s.pins.length →
      ∀ p, s.view.popup = some p → ∃ q ∈ pinsReducer s.pins a, q._id = p._id) :
    Consistent (dispatchStep s a) := by
  intro p hp
  simp only [dispatchStep, popupEffectOnRender] at hp ⊢
  by_cases hl : (pinsReducer s.pins a).length = s.pins.length
  · rw [if_pos hl] at hp
    exact hkeep hl p hp
  · rw [if_neg hl] at hp
    exact (popupEffect_some _ _ _ hp).2

theorem selectStep_eq (s : Screen) (pin : Pin) :
    selectStep s pin = { s with view := { s.view with popup := some pin } } := by
  simp [selectStep, handleSelectPin, dispatchStep, pinsReducer, popupEffectOnRender]

theorem roundHalfEven_ge (m : ℚ) : ⌊m⌋ ≤ roundHalfEven m := by
  unfold roundHalfEven
  simp only
  split_ifs <;> omega

theorem roundHalfEven_le (m : ℚ) : roundHalfEven m ≤ ⌊m⌋ + 1 := by
  unfold roundHalfEven
  simp only
  split_ifs <;> omega

theorem roundHalfEven_le_int (m : ℚ) (A : ℤ) (h : m ≤ A) : roundHalfEven m ≤ A := by
  have hf : ⌊m⌋ ≤ A := Int.floor_le_floor h |>.trans_eq (Int.floor_intCast A)
  rcases lt_or_eq_of_le hf with hlt | heq
  · have := roundHalfEven_le m
    omega
  · have hm : m = (⌊m⌋ : ℚ) := by
      apply le_antisymm
      · rw [heq]; exact h
      · exact Int.floor_le m
    unfold roundHalfEven
    simp only
    rw [if_pos (by rw [← hm]; norm_num)]
    exact hf

theorem int_le_roundHalfEven (m : ℚ) (A : ℤ) (h : (A : ℚ) ≤ m) : A ≤ roundHalfEven m :=
  (Int.le_floor.mpr h).trans (roundHalfEven_ge m)

theorem toDouble_of_pos (x : ℚ) (hx : 0 < x) :
    toDouble x = (roundHalfEven (x / 2 ^ (Int.log 2 x - 52)) : ℚ) * 2 ^ (Int.log 2 x - 52) := by
  unfold toDouble
  rw [if_neg hx.ne', abs_of_pos hx, if_neg (not_lt.mpr hx.le)]
  simp

theorem toDouble_nonpos (x : ℚ) (hx : x ≤ 0) : toDouble x ≤ 0 := by
  unfold toDouble
  by_cases h0 : x = 0
  · simp [h0]
  · have hlt : x < 0 := lt_of_le_of_ne hx h0
    rw [if_neg h0, if_pos hlt]
    simp only
    have hu : (0 : ℚ) < 2 ^ (Int.log 2 |x| - 52) := by positivity
    have hm : (0 : ℚ) ≤ |x| / 2 ^ (Int.log 2 |x| - 52) := by positivity
    have hr : (0 : ℤ) ≤ roundHalfEven (|x| / 2 ^ (Int.log 2 |x| - 52)) :=
      int_le_roundHalfEven _ 0 (by simpa using hm)
    have hr2 : (0 : ℚ) ≤ (roundHalfEven (|x| / 2 ^ (Int.log 2 |x| - 52)) : ℚ) := by
      exact_mod_cast hr
    nlinarith [mul_nonneg hr2 hu.le]

theorem log_le_of_lt_zpow (x : ℚ) (E : ℤ) (hx : 0 < x) (hE : x < 2 ^ (E + 1)) :
    Int.log 2 x ≤ E := by
  have h := (Int.lt_zpow_iff_log_lt (R := ℚ) (b := 2) (by norm_num) hx (x := E + 1)).mp
    (by simpa using hE)
  omega

theorem zpow_split (E e : ℤ) (h : e ≤ E) :
    (2 : ℚ) ^ (E - 52) = ((2 ^ (E - e).toNat : ℤ) : ℚ) * 2 ^ (e - 52) := by
  have hk : E - 52 = ((E - e).toNat : ℤ) + (e - 52) := by
    rw [Int.toNat_of_nonneg (by omega)]; ring
  rw [hk, zpow_add₀ (by norm_num), zpow_natCast]
  push_cast
  rfl

theorem zpow_multiple (c : ℚ) (E e a : ℤ) (h : e ≤ E) (hc : c = (a : ℚ) * 2 ^ (E - 52)) :
    c = ((a * 2 ^ (E - e).toNat : ℤ) : ℚ) * 2 ^ (e - 52) := by
  rw [hc, zpow_split E e h]
  push_cast
  ring

theorem zpow_split52 (e : ℤ) :
    (2 : ℚ) ^ e = ((4503599627370496 : ℤ) : ℚ) * 2 ^ (e - 52) := by
  have h : e = 52 + (e - 52) := by ring
  conv_lhs => rw [h, zpow_add₀ (by norm_num)]
  norm_num

theorem toDouble_le_of_le (x c : ℚ) (E a : ℤ) (hx : 0 < x) (hxc : x ≤ c)
    (hE : x < 2 ^ (E + 1)) (hc : c = (a : ℚ) * 2 ^ (E - 52)) : toDouble x ≤ c := by
  have he : Int.log 2 x ≤ E := log_le_of_lt_zpow x E hx hE
  have hu : (0 : ℚ) < 2 ^ (Int.log 2 x - 52) := by positivity
  have hceq := zpow_multiple c E _ a he hc
  have hA : x / 2 ^ (Int.log 2 x - 52) ≤ ((a * 2 ^ (E - Int.log 2 x).toNat : ℤ) : ℚ) := by
    rw [div_le_iff₀ hu, ← hceq]
    exact hxc
  have hr : (roundHalfEven (x / 2 ^ (Int.log 2 x - 52)) : ℚ)
      ≤ ((a * 2 ^ (E - Int.log 2 x).toNat : ℤ) : ℚ) := by
    exact_mod_cast roundHalfEven_le_int _ _ hA
  rw [toDouble_of_pos x hx, hceq]
  exact mul_le_mul_of_nonneg_right hr hu.le

theorem le_toDouble_of_le (x c : ℚ) (E a : ℤ) (hc0 : 0 < c) (hcx : c ≤ x)
    (hE : c < 2 ^ (E + 1)) (hc : c = (a : ℚ) * 2 ^ (E - 52)) : c ≤ toDouble x := by
  have hx : 0 < x := lt_of_lt_of_le hc0 hcx
  have hu : (0 : ℚ) < 2 ^ (Int.log 2 x - 52) := by positivity
  rw [toDouble_of_pos x hx]
  by_cases he : Int.log 2 x ≤ E
  · have hceq := zpow_multiple c E _ a he hc
    have hA : ((a * 2 ^ (E - Int.log 2 x).toNat : ℤ) : ℚ) ≤ x / 2 ^ (Int.log 2 x - 52) := by
      rw [le_div_iff₀ hu, ← hceq]
      exact hcx
    have hr : ((a * 2 ^ (E - Int.log 2 x).toNat : ℤ) : ℚ)
        ≤ (roundHalfEven (x / 2 ^ (Int.log 2 x - 52)) : ℚ) := by
      exact_mod_cast int_le_roundHalfEven _ _ hA
    rw [hceq]
    exact mul_le_mul_of_nonneg_right hr hu.le
  · have hlog : (2 : ℚ) ^ (Int.log 2 x) ≤ x := by
      simpa using Int.zpow_log_le_self (R := ℚ) (b := 2) (by norm_num) hx
    have hm : ((4503599627370496 : ℤ) : ℚ) ≤ x / 2 ^ (Int.log 2 x - 52) := by
      rw [le_div_iff₀ hu, ← zpow_split52]
      exact hlog
    have hr : ((4503599627370496 : ℤ) : ℚ)
        ≤ (roundHalfEven (x / 2 ^ (Int.log 2 x - 52)) : ℚ) := by
      exact_mod_cast int_le_roundHalfEven _ _ hm
    have hbig : (2 : ℚ) ^ (E + 1) ≤ 2 ^ (Int.log 2 x) :=
      zpow_le_zpow_right₀ (by norm_num) (by omega)
    calc c ≤ 2 ^ (E + 1) := hE.le
      _ ≤ 2 ^ (Int.log 2 x) := hbig
      _ = ((4503599627370496 : ℤ) : ℚ) * 2 ^ (Int.log 2 x - 52) := zpow_split52 _
      _ ≤ _ := mul_le_mul_of_nonneg_right hr hu.le

theorem truncated_minutes_le_30 (d : ℤ) :
    (if toDouble (toDouble (d : ℚ) / 60000) > 0 then ⌊toDouble (toDouble (d : ℚ) / 60000)⌋
      else ⌈toDouble (toDouble (d : ℚ) / 60000)⌉) ≤ 30 ↔ d < 1860000 := by
  rcases le_or_lt d 0 with h0 | h0
  · have h1 : toDouble (d : ℚ) ≤ 0 := toDouble_nonpos _ (by exact_mod_cast h0)
    have h2 : toDouble (toDouble (d : ℚ) / 60000) ≤ 0 :=
      toDouble_nonpos _ (div_nonpos_of_nonpos_of_nonneg h1 (by norm_num))
    rw [if_neg (not_lt.mpr h2)]
    have h3 : ⌈toDouble (toDouble (d : ℚ) / 60000)⌉ ≤ 0 := Int.ceil_le.mpr (by simpa using h2)
    constructor
    · intro _; omega
    · intro _; omega
  rcases lt_or_le d 1860000 with h1 | h1
  · have hd1 : (1 : ℚ) ≤ (d : ℚ) := by exact_mod_cast h0
    have hd2 : (d : ℚ) ≤ 1859999 := by
      have : d ≤ 1859999 := by omega
      exact_mod_cast this
    have hms1 : (1 : ℚ) ≤ toDouble (d : ℚ) :=
      le_toDouble_of_le _ 1 0 4503599627370496 (by norm_num) hd1 (by norm_num) (by norm_num)
    have hms2 : toDouble (d : ℚ) ≤ 1859999 :=
      toDouble_le_of_le _ 1859999 20 7988634875592704 (by linarith) hd2
        (by norm_num; linarith) (by norm_num)
    have hy0 : (0 : ℚ) < toDouble (d : ℚ) / 60000 := by positivity
    have hy1 : toDouble (d : ℚ) / 60000 ≤ 2031615 / 65536 := by
      rw [div_le_iff₀ (by norm_num)]
      linarith
    have hdiff : toDouble (toDouble (d : ℚ) / 60000) ≤ 2031615 / 65536 :=
      toDouble_le_of_le _ _ 4 8725719983063040 hy0 hy1 (by norm_num; linarith) (by norm_num)
    have hlt : toDouble (toDouble (d : ℚ) / 60000) < ((31 : ℤ) : ℚ) := by
      norm_num; linarith
    constructor
    · intro _; exact h1
    · intro _
      split_ifs with hpos
      · have := Int.floor_lt.mpr hlt
        omega
      · have : ⌈toDouble (toDouble (d : ℚ) / 60000)⌉ ≤ 0 :=
          Int.ceil_le.mpr (by simpa using not_lt.mp hpos)
        omega
  · have hd : (1860000 : ℚ) ≤ (d : ℚ) := by exact_mod_cast h1
    have hms : (1860000 : ℚ) ≤ toDouble (d : ℚ) :=
      le_toDouble_of_le _ 1860000 20 7988639170560000 (by norm_num) hd (by norm_num)
        (by norm_num)
    have hy : (31 : ℚ) ≤ toDouble (d : ℚ) / 60000 := by
      rw [le_div_iff₀ (by norm_num)]
      linarith
    have hdiff : (31 : ℚ) ≤ toDouble (toDouble (d : ℚ) / 60000) :=
      le_toDouble_of_le _ 31 4 8725724278030336 (by norm_num) hy (by norm_num) (by norm_num)
    have hpos : toDouble (toDouble (d : ℚ) / 60000) > 0 := by linarith
    rw [if_pos hpos]
    have hfl : (31 : ℤ) ≤ ⌊toDouble (toDouble (d : ℚ) / 60000)⌋ :=
      Int.le_floor.mpr (by simpa using hdiff)
    constructor
    · intro h; omega
    · intro h; omega

theorem differenceInMinutes_le_30 (now createdAt : Int)
    (hn : |now| ≤ 8640000000000000) (hc : |createdAt| ≤ 8640000000000000) :
    ∃ m, differenceInMinutes now createdAt = some m ∧
      (m ≤ 30 ↔ now - createdAt < 1860000) := by
  refine ⟨_, ?_, truncated_minutes_le_30 (now - createdAt)⟩
  simp [differenceInMinutes, differenceInMilliseconds, getTime, hn, hc]

theorem differenceInMinutes_invalid (now createdAt : Int)
    (h : 8640000000000000 < |now| ∨ 8640000000000000 < |createdAt|) :
    differenceInMinutes now createdAt = none := by
  have hms : differenceInMilliseconds now createdAt = none := by
    unfold differenceInMilliseconds getTime
    rcases h with h | h
    · rw [if_neg (not_le.mpr h)]
    · rw [if_neg (not_le.mpr h)]
      split_ifs <;> rfl
  unfold differenceInMinutes
  rw [hms]

theorem highlightNewPin_eq (toNumber : String → Option Int) (now : Int) (pin : Pin)
    (createdAt : Int) (h : toNumber pin.createdAt = some createdAt)
    (hn : |now| ≤ 8640000000000000) (hc : |createdAt| ≤ 8640000000000000) :
    highlightNewPin toNumber now pin
      = if now - createdAt < 1860000 then "limegreen" else "purple" := by
  obtain ⟨m, hm, hiff⟩ := differenceInMinutes_le_30 now createdAt hn hc
  simp only [highlightNewPin, h, hm]
  by_cases hlt : now - createdAt < 1860000
  · simp [hlt, hiff.mpr hlt]
  · simp [hlt, mt hiff.mp hlt]

theorem highlightNewPin_limegreen (toNumber : String → Option Int) (now : Int) (pin : Pin)
    (createdAt : Int) (h : toNumber pin.createdAt = some createdAt)
    (hn : |now| ≤ 8640000000000000) (hc : |createdAt| ≤ 8640000000000000) :
    highlightNewPin toNumber now pin = "limegreen" ↔ now - createdAt < 1860000 := by
  rw [highlightNewPin_eq toNumber now pin createdAt h hn hc]
  by_cases hlt : now - createdAt < 1860000
  · simp [hlt]
  · simp only [hlt, if_false, iff_false]
    decide

theorem highlightNewPin_purple (toNumber : String → Option Int) (now : Int) (pin : Pin)
    (createdAt : Int) (h : toNumber pin.createdAt = some createdAt)
    (hn : |now| ≤ 8640000000000000) (hc : |createdAt| ≤ 8640000000000000) :
    highlightNewPin toNumber now pin = "purple" ↔ 1860000 ≤ now - createdAt := by
  rw [highlightNewPin_eq toNumber now pin createdAt h hn hc]
  by_cases hlt : now - createdAt < 1860000
  · simp only [hlt, if_true]
    constructor
    · intro hs; exact absurd hs (by decide)
    · intro hge; omega
  · simp only [hlt, if_false, true_iff]
    omega

theorem highlightNewPin_invalid (toNumber : String → Option Int) (now : Int) (pin : Pin)
    (createdAt : Int) (h : toNumber pin.createdAt = some createdAt)
    (hbad : 8640000000000000 < |now| ∨ 8640000000000000 < |createdAt|) :
    highlightNewPin toNumber now pin = "purple" := by
  simp [highlightNewPin, h, differenceInMinutes_invalid now createdAt hbad]

theorem popup_consistent_keeps (s : Screen) (h : Reachable keepsPinAction s) :
    Consistent s := by
  induction h with
  | initial => intro p hp; cases hp
  | @dispatch s a _ hal ih =>
    apply dispatchStep_consistent
    intro hl p hp
    cases a with
    | GET_PINS payload =>
      rcases hal with hne | hkeep
      · exact absurd hl hne
      · exact hkeep p hp
    | CREATE_PIN pin => exact upsertById_keeps _ _ _ (ih p hp)
    | CREATE_COMMENT pin => exact upsertById_keeps _ _ _ (ih p hp)
    | DELETE_PIN pin =>
      have hsame : pinsReducer s.pins (.DELETE_PIN pin) = s.pins :=
        removeById_same_length _ _ hl
      rw [hsame]
      exact ih p hp
    | CREATE_DRAFT => exact absurd hal id
    | UPDATE_DRAFT_LOCATION _ => exact absurd hal id
    | SET_PIN _ => exact absurd hal id
    | LOGIN_USER _ => exact absurd hal id
    | IS_LOGGED_IN _ => exact absurd hal id
  | @select s pin _ hmem _ =>
    rw [selectStep_eq]
    intro p hp
    have hpin : pin = p := by simpa using hp
    exact ⟨pin, hmem, by rw [hpin]⟩
  | close _ _ => intro p hp; cases hp

/-! ## Popup -/

/-- C1, the code at the failing input: after a pushed CREATE_PIN a, a click on
pin a, the bulk fetch answering GET_PINS [b] and a pushed DELETE_PIN a, the
collection has kept the length 1 since the click, so the popup effect never ran
again: the collection is [b], the popup still shows pin a, and the state is
reachable, so popup consistency does not hold over the reachable states. -/
theorem popup_dangling_after_same_length_replace :
    Reachable anyPinAction danglingScreen ∧
    danglingScreen.pins = [samplePin "b" "u"] ∧
    danglingScreen.view.popup = some (samplePin "a" "u") ∧
    ¬ Consistent danglingScreen ∧
    ¬ ∀ s : Screen, Reachable anyPinAction s → Consistent s := by
  have hr : Reachable anyPinAction danglingScreen :=
    Reachable.dispatch _
      (Reachable.dispatch _
        (Reachable.select _ (Reachable.dispatch _ Reachable.initial rfl)
          (List.mem_singleton.mpr rfl))
        rfl)
      rfl
  have hbad : ¬ Consistent danglingScreen := by
    intro hc
    obtain ⟨q, hq, hid⟩ := hc (samplePin "a" "u") rfl
    have hq2 : q = samplePin "b" "u" := List.mem_singleton.mp hq
    rw [hq2] at hid
    exact absurd hid (by decide)
  exact ⟨hr, rfl, rfl, hbad, fun hall => hbad (hall _ hr)⟩

/-- C2: one run of the popup effect keeps the selection p when p is a pin whose
id is in the list and yields none otherwise; with the list [A] and popup A,
removing A and rendering again runs the effect and clears the popup. -/
theorem popupEffect_postcondition (ps : List Pin) (p : Option Pin) :
    popupEffect ps p =
      (match p with
       | some a => if ∃ q ∈ ps, q._id = a._id then some a else none
       | none => none) ∧
    ∀ A : Pin, popupEffectOnRender [A] ([A].erase A) (some A) = none := by
  refine ⟨?_, ?_⟩
  · cases p with
    | none => exact popupEffect_none ps
    | some a =>
      by_cases h : ∃ q ∈ ps, q._id = a._id
      · simp only [if_pos h]; exact popupEffect_present ps a h
      · simp only [if_neg h]; exact popupEffect_absent ps a h
  · intro A
    simp [popupEffectOnRender, popupEffect, pinExists, findIndex, findIndexFrom]

/-! ## Draft -/

/-- C3: a left-button click at [lng, lat] dispatches CREATE_DRAFT and then
UPDATE_DRAFT_LOCATION when there is no draft, and only UPDATE_DRAFT_LOCATION
when there is one; the payload has longitude lng and latitude lat. -/
theorem handleMapClick_primary (pins : List Pin) (currentUser : Option User) (d : Draft)
    (lng lat : ℚ) :
    handleMapClick { pins := pins, draft := none, currentUser := currentUser }
        { lngLat := (lng, lat), leftButton := true } =
      [Action.CREATE_DRAFT,
       Action.UPDATE_DRAFT_LOCATION { longitude := lng, latitude := lat }] ∧
    handleMapClick { pins := pins, draft := some d, currentUser := currentUser }
        { lngLat := (lng, lat), leftButton := true } =
      [Action.UPDATE_DRAFT_LOCATION { longitude := lng, latitude := lat }] := by
  constructor <;> simp [handleMapClick]

/-- C4: a click whose leftButton flag is false dispatches nothing, whatever
the store holds, so replaying the dispatched actions through any reducing
function leaves any store state as it was. -/
theorem handleMapClick_secondary (state : State) (lngLat : ℚ × ℚ) :
    handleMapClick state { lngLat := lngLat, leftButton := false } = [] ∧
    ∀ (σ : Type) (reduce : σ → Action → σ) (store : σ),
      (handleMapClick state { lngLat := lngLat, leftButton := false }).foldl reduce store
        = store := by
  have h : handleMapClick state { lngLat := lngLat, leftButton := false } = [] := by
    simp [handleMapClick]
  exact ⟨h, fun σ reduce store => by rw [h]; rfl⟩

/-! ## Push channels -/

/-- C5, as stated, fails: on the empty collection, a "pin deleted" event for
pin p followed by a "pin added" event for p leaves p in the collection. -/
theorem delete_then_add_leaves_pin :
    ¬ ∀ (pins : List Pin) (P : Pin),
        ∀ q ∈ (onPinDeleted P ++ onPinAdded P).foldl pinsReducer pins, q._id ≠ P._id := by
  intro h
  exact h [] (samplePin "p" "u") (samplePin "p" "u") (by decide) rfl

/-- C5, amended: a "pin deleted" event for P followed by a "pin added" event
for P leaves the collection with the other pins followed by P: P is in the
collection and is its only pin with that id. -/
theorem delete_then_add_result (pins : List Pin) (P : Pin) :
    (onPinDeleted P ++ onPinAdded P).foldl pinsReducer pins
        = pins.filter (fun q => q._id != P._id) ++ [P] ∧
    P ∈ (onPinDeleted P ++ onPinAdded P).foldl pinsReducer pins ∧
    ∀ q ∈ (onPinDeleted P ++ onPinAdded P).foldl pinsReducer pins,
      q._id = P._id → q = P := by
  have hnone : (List.filter (fun q => q._id != P._id) pins).any (fun q => q._id == P._id)
      = false := by
    simp [List.any_eq_false, List.mem_filter]
  have hres : (onPinDeleted P ++ onPinAdded P).foldl pinsReducer pins
      = pins.filter (fun q => q._id != P._id) ++ [P] := by
    simp only [onPinDeleted, onPinAdded, List.singleton_append, List.foldl_cons,
      List.foldl_nil, pinsReducer, removeById, upsertById, hnone]
    simp
  refine ⟨hres, ?_, ?_⟩
  · rw [hres]; simp
  · rw [hres]
    intro q hq hid
    rcases List.mem_append.mp hq with hq | hq
    · have := (List.mem_filter.mp hq).2
      simp [hid] at this
    · exact List.mem_singleton.mp hq

/-! ## Recency -/

/-- C6, as stated, fails: a pin created at 0 and read at 1,800,001 ms, one
millisecond more than 30 minutes later, is still 'limegreen'. -/
theorem highlightNewPin_not_30_minutes_sharp :
    ¬ ∀ (toNumber : String → Option Int) (now : Int) (pin : Pin) (createdAt : Int),
        toNumber pin.createdAt = some createdAt →
        (highlightNewPin toNumber now pin = "limegreen" ↔ now - createdAt ≤ 1800000) := by
  intro h
  have hgreen : highlightNewPin sampleNumber 1800001 (samplePin "a" "u") = "limegreen" :=
    (highlightNewPin_limegreen sampleNumber 1800001 (samplePin "a" "u") 0 rfl
      (by norm_num) (by norm_num)).mpr (by norm_num)
  have h1 := (h sampleNumber 1800001 (samplePin "a" "u") 0 rfl).mp hgreen
  omega

/-- C6, amended: for a pin whose createdAt parses to an integer number of
epoch milliseconds, with now and createdAt within the range of Date (at most
8.64e15 ms from the epoch), highlightNewPin gives 'limegreen' exactly when
now - createdAt < 31 minutes (1,860,000 ms), that is when the difference in
whole minutes is at most 30, and 'purple' exactly otherwise. -/
theorem highlightNewPin_whole_minutes (toNumber : String → Option Int) (now : Int) (pin : Pin)
    (createdAt : Int) (h : toNumber pin.createdAt = some createdAt)
    (hn : |now| ≤ 8640000000000000) (hc : |createdAt| ≤ 8640000000000000) :
    (highlightNewPin toNumber now pin = "limegreen" ↔ now - createdAt < 1860000) ∧
    (highlightNewPin toNumber now pin = "purple" ↔ ¬ (now - createdAt < 1860000)) := by
  refine ⟨highlightNewPin_limegreen toNumber now pin createdAt h hn hc, ?_⟩
  rw [highlightNewPin_purple toNumber now pin createdAt h hn hc]
  omega

/-- Witness for C6: a pin created at 0, read 29 minutes later and 31 minutes
later. -/
theorem highlightNewPin_whole_minutes_witness :
    sampleNumber (samplePin "a" "u").createdAt = some 0 ∧
    highlightNewPin sampleNumber 1740000 (samplePin "a" "u") = "limegreen" ∧
    highlightNewPin sampleNumber 1860000 (samplePin "a" "u") = "purple" :=
  ⟨rfl,
   (highlightNewPin_whole_minutes sampleNumber 1740000 (samplePin "a" "u") 0 rfl
     (by norm_num) (by norm_num)).1.mpr (by norm_num),
   (highlightNewPin_whole_minutes sampleNumber 1860000 (samplePin "a" "u") 0 rfl
     (by norm_num) (by norm_num)).2.mpr (by norm_num)⟩

/-- C10, as stated, fails: a pin whose createdAt is 9e15 lies in the future of
now = 0, and now - createdAt < 1,860,000, yet 9e15 is beyond the range of Date,
the difference is NaN and the pin is 'purple'. -/
theorem highlightNewPin_invalid_date_purple :
    ¬ ∀ (toNumber : String → Option Int) (now : Int) (pin : Pin) (createdAt : Int),
        toNumber pin.createdAt = some createdAt →
        (highlightNewPin toNumber now pin = "limegreen" ↔ now - createdAt < 1860000) := by
  intro h
  have hpurple : highlightNewPin sampleNumber 0 farPin = "purple" :=
    highlightNewPin_invalid sampleNumber 0 farPin 9000000000000000 rfl
      (Or.inr (by norm_num))
  have hgreen : highlightNewPin sampleNumber 0 farPin = "limegreen" :=
    (h sampleNumber 0 farPin 9000000000000000 rfl).mpr (by norm_num)
  rw [hpurple] at hgreen
  exact absurd hgreen (by decide)

/-- C10, amended: with differenceInMinutes rounding toward zero, for every
integer createdAt and now within the range of Date (at most 8.64e15 ms from
the epoch) highlightNewPin gives 'limegreen' if and only if
now - createdAt < 1,860,000 ms, in particular for every such createdAt in the
future, and 'purple' otherwise; a pin that is 'purple' at one time is 'purple'
at every later time. -/
theorem highlightNewPin_threshold (toNumber : String → Option Int) (now : Int) (pin : Pin)
    (createdAt : Int) (h : toNumber pin.createdAt = some createdAt)
    (hn : |now| ≤ 8640000000000000) (hc : |createdAt| ≤ 8640000000000000) :
    (highlightNewPin toNumber now pin = "limegreen" ↔ now - createdAt < 1860000) ∧
    (now < createdAt → highlightNewPin toNumber now pin = "limegreen") ∧
    (highlightNewPin toNumber now pin ≠ "limegreen" →
      highlightNewPin toNumber now pin = "purple") ∧
    (∀ later : Int, now ≤ later → highlightNewPin toNumber now pin = "purple" →
      highlightNewPin toNumber later pin = "purple") := by
  have hg := highlightNewPin_limegreen toNumber now pin createdAt h hn hc
  have hp := highlightNewPin_purple toNumber now pin createdAt h hn hc
  refine ⟨hg, ?_, ?_, ?_⟩
  · intro hlt
    exact hg.mpr (by omega)
  · intro hne
    refine hp.mpr ?_
    by_contra hcon
    exact hne (hg.mpr (by omega))
  · intro later hle hpur
    have h1 := hp.mp hpur
    by_cases hl : |later| ≤ 8640000000000000
    · exact (highlightNewPin_purple toNumber later pin createdAt h hl hc).mpr (by omega)
    · exact highlightNewPin_invalid toNumber later pin createdAt h (Or.inl (not_le.mp hl))

/-- Witness for C10: a pin created at 0 is 'limegreen' one millisecond before
31 minutes, and 'purple' at 31 minutes and an hour later. -/
theorem highlightNewPin_threshold_witness :
    sampleNumber (samplePin "a" "u").createdAt = some 0 ∧
    highlightNewPin sampleNumber 1859999 (samplePin "a" "u") = "limegreen" ∧
    highlightNewPin sampleNumber 5460000 (samplePin "a" "u") = "purple" :=
  ⟨rfl,
   (highlightNewPin_threshold sampleNumber 1859999 (samplePin "a" "u") 0 rfl
     (by norm_num) (by norm_num)).1.mpr (by norm_num),
   (highlightNewPin_threshold sampleNumber 1860000 (samplePin "a" "u") 0 rfl
     (by norm_num) (by norm_num)).2.2.2 5460000 (by norm_num)
     ((highlightNewPin_threshold sampleNumber 1860000 (samplePin "a" "u") 0 rfl
       (by norm_num) (by norm_num)).2.2.1 (by
         rw [Ne, (highlightNewPin_threshold sampleNumber 1860000 (samplePin "a" "u") 0 rfl
           (by norm_num) (by norm_num)).1]
         norm_num))⟩

/-! ## Deleting the selected pin -/

/-- C7: when the delete request succeeds handleDeletePin clears the popup and
nothing else; when it is rejected the local state is left as it was; in both
cases no action is dispatched, so the store, its pin collection included, is
what it was under any reducing function. -/
theorem handleDeletePin_success_only {ε ρ : Type} (request : String → Except ε ρ)
    (view : Local) (popup : Pin) :
    (∀ r, request popup._id = .ok r →
      (handleDeletePin request view popup).view = { view with popup := none } ∧
      (handleDeletePin request view popup).rejected = none) ∧
    (∀ e, request popup._id = .error e →
      (handleDeletePin request view popup).view = view ∧
      (handleDeletePin request view popup).rejected = some e) ∧
    (handleDeletePin request view popup).dispatched = [] ∧
    ∀ (σ : Type) (reduce : σ → Action → σ) (store : σ),
      (handleDeletePin request view popup).dispatched.foldl reduce store = store := by
  have hd : (handleDeletePin request view popup).dispatched = [] := by
    cases hr : request popup._id <;> simp [handleDeletePin, hr]
  refine ⟨?_, ?_, hd, ?_⟩
  · intro r hr
    simp [handleDeletePin, hr]
  · intro e he
    simp [handleDeletePin, he]
  · intro σ reduce store
    rw [hd]; rfl

/-- Witness for C7: a request that succeeds and one that is rejected, with the
popup on pin "a". -/
theorem handleDeletePin_success_only_witness :
    (handleDeletePin (fun _ : String => (Except.ok () : Except String Unit)) sampleView
        (samplePin "a" "u2")).view.popup = none ∧
    (handleDeletePin (fun _ : String => (Except.error "network" : Except String Unit))
        sampleView (samplePin "a" "u2")).view.popup = some (samplePin "a" "u2") :=
  ⟨congrArg Local.popup
     ((handleDeletePin_success_only (fun _ : String => (Except.ok () : Except String Unit))
       sampleView (samplePin "a" "u2")).1 () rfl).1,
   congrArg Local.popup
     ((handleDeletePin_success_only
       (fun _ : String => (Except.error "network" : Except String Unit))
       sampleView (samplePin "a" "u2")).2.1 "network" rfl).1⟩

/-- C8: with a current user and a popup pin, isAuthUser is true exactly when
the user's _id equals the _id of the pin's author, and the delete button is
shown exactly then; a pin authored by "u2" gives false for the current user
"u1" and true for "u2". -/
theorem isAuthUser_iff (pins : List Pin) (draft : Option Draft) (currentUser : User)
    (popup : Pin) :
    isAuthUser { pins := pins, draft := draft, currentUser := some currentUser } (some popup)
      = some (decide (currentUser._id = popup.author._id)) ∧
    showsDeleteButton { pins := pins, draft := draft, currentUser := some currentUser }
        (some popup)
      = some (decide (currentUser._id = popup.author._id)) ∧
    isAuthUser { pins := pins, draft := draft, currentUser := some { _id := "u1" } }
      (some (samplePin "a" "u2")) = some false ∧
    isAuthUser { pins := pins, draft := draft, currentUser := some { _id := "u2" } }
      (some (samplePin "a" "u2")) = some true := by
  refine ⟨rfl, rfl, ?_, ?_⟩
  · simp [isAuthUser, samplePin]
  · simp [isAuthUser, samplePin]

/-! ## Viewport -/

/-- C9, the code at the failing input: the position callback writes the
viewport of the first render with the reported coordinates, so for every local
state the zoom afterwards is 13; after the user has zoomed to 5 the reported
position (10, 20) resets the zoom from 5 to 13. -/
theorem getUserPosition_resets_zoom :
    (∀ (view : Local) (lat lng : ℚ),
      (getUserPosition true (some (lat, lng)) view).viewport
        = { latitude := lat, longitude := lng, zoom := 13 } ∧
      (getUserPosition true (some (lat, lng)) view).userPosition
        = some { latitude := lat, longitude := lng }) ∧
    zoomedOut.viewport.zoom = 5 ∧
    (getUserPosition true (some (10, 20)) zoomedOut).viewport.zoom = 13 ∧
    (getUserPosition true (some (10, 20)) zoomedOut).viewport.zoom
      ≠ zoomedOut.viewport.zoom := by
  refine ⟨?_, rfl, rfl, ?_⟩
  · intro view lat lng
    exact ⟨rfl, rfl⟩
  · show (13 : ℚ) ≠ 5
    norm_num

end GeoPins
